import Mathlib

/-!
Shallow embedding of `src/backend/dtl_processor_web.py` (class `DTLWebProcessor`),
the DTL-file processing pipeline: packet decoding, file validation, discovery,
per-file decode, export and pipeline drivers.

Modelling conventions:
* raw bytes are `List Nat` (each entry a byte value `< 256`);
* Python's fixed-offset `datetime.timezone` is an `Int` UTC offset in seconds
  (Python requires the offset to lie strictly between -24h and +24h);
* a 32-bit IEEE-754 float value is carried as its raw bit pattern
  (`DtlValue.floatVal`): the claims under study only concern which decoding
  branch is selected, never float arithmetic;
* the filesystem is a map from (directory, filename) to a `FileState`, which
  also models I/O errors (`OSError`) raised by `stat`/`open`/`read`.
-/

namespace DTL

/-- Little-endian unsigned 32-bit integer from four bytes
(`struct.unpack "<I"`). -/
def leU32 (b0 b1 b2 b3 : Nat) : Nat :=
  b0 + 256 * b1 + 65536 * b2 + 16777216 * b3

/-- Two's-complement signed reading of a 32-bit pattern (`struct.unpack "<i"`). -/
def toSigned32 (n : Nat) : Int :=
  if n < 2147483648 then (n : Int) else (n : Int) - 4294967296

/-- The value field of a decoded packet: either a signed 32-bit integer, or a
32-bit float carried as its raw little-endian bit pattern. -/
inductive DtlValue where
  | intVal (i : Int)
  | floatVal (bits : Nat)
  deriving DecidableEq, Repr

/-- `p` is a prefix of `s` (character lists). -/
def startsWithChars : List Char → List Char → Bool
  | [], _ => true
  | _ :: _, [] => false
  | p :: ps, c :: cs => p == c && startsWithChars ps cs

/-- Python's `pattern in s` substring test on character lists. -/
def containsChars (s pat : List Char) : Bool :=
  match s with
  | [] => startsWithChars pat []
  | _ :: rest => startsWithChars pat s || containsChars rest pat

/-- Python's `pattern in s` substring test on strings. -/
def containsSubstr (s pat : String) : Bool :=
  containsChars s.data pat.data

/-- `s` ends with `suf` (`str.endswith`). -/
def endsWithChars (s suf : List Char) : Bool :=
  startsWithChars suf.reverse s.reverse

/-- ASCII lower-casing of a filename (`str.lower`; the Unicode cases where
Python's `lower` differs are immaterial for the ASCII `.dtl` suffix test). -/
def lowerChars (s : List Char) : List Char :=
  s.map Char.toLower

/-- Civil Gregorian date (year, month, day) for a count of days since
1970-01-01; the conversion performed by `datetime.fromtimestamp`. -/
def civilFromDays (z : Int) : Int × Nat × Nat :=
  let z' := z + 719468
  let era := Int.fdiv z' 146097
  let doe := (z' - era * 146097).toNat
  let yoe := (doe - doe / 1460 + doe / 36524 - doe / 146096) / 365
  let y := (yoe : Int) + era * 400
  let doy := doe - (365 * yoe + yoe / 4 - yoe / 100)
  let mp := (5 * doy + 2) / 153
  let d := doy - (153 * mp + 2) / 5 + 1
  let m := if mp < 10 then mp + 3 else mp - 9
  (if m ≤ 2 then y + 1 else y, m, d)

/-- Decimal rendering of `n`, zero-padded on the left to `width` digits. -/
def padNum (width n : Nat) : String :=
  let s := Nat.repr n
  String.mk (List.replicate (width - s.data.length) '0') ++ s

/-- `datetime.strftime "%Y-%m-%d"` for POSIX timestamp `ts` at fixed UTC
offset `tz` seconds. -/
def renderDate (tz : Int) (ts : Nat) : String :=
  let loc := (ts : Int) + tz
  let days := Int.fdiv loc 86400
  let c := civilFromDays days
  padNum 4 c.1.toNat ++ "-" ++ padNum 2 c.2.1 ++ "-" ++ padNum 2 c.2.2

/-- `datetime.strftime "%H:%M:%S"` for POSIX timestamp `ts` at fixed UTC
offset `tz` seconds. -/
def renderTime (tz : Int) (ts : Nat) : String :=
  let loc := (ts : Int) + tz
  let tod := (Int.fmod loc 86400).toNat
  padNum 2 (tod / 3600) ++ ":" ++ padNum 2 (tod % 3600 / 60) ++ ":" ++ padNum 2 (tod % 60)

/-- One decoded observation, the dict returned by `_decode_dtl_packet`. -/
structure DtlRecord where
  date_full : String
  time_full : String
  ms : Nat
  value : DtlValue
  deriving DecidableEq, Repr

/-- `DTLWebProcessor._decode_dtl_packet`: decode one 9-byte packet, or `none`
(the Python `None`) when it is unparseable.  With a fixed-offset time zone
and an unsigned 32-bit timestamp the Python `try` body cannot raise
(`struct.unpack` of exactly 4 bytes never fails and `datetime.fromtimestamp`
accepts the whole `u32` range), so the only `none` case is a length other
than 9. -/
def decode_dtl_packet (packet : List Nat) (use_integer_encoding : Bool)
    (tz : Int) : Option DtlRecord :=
  if packet.length = 9 then
    let byte := fun i => packet.getD i 0
    let unix_timestamp := leU32 (byte 0) (byte 1) (byte 2) (byte 3)
    let ms_data := byte 4
    let data_value :=
      if use_integer_encoding then
        DtlValue.intVal (toSigned32 (leU32 (byte 5) (byte 6) (byte 7) (byte 8)))
      else
        DtlValue.floatVal (leU32 (byte 5) (byte 6) (byte 7) (byte 8))
    some
      { date_full := renderDate tz unix_timestamp
        time_full := renderTime tz unix_timestamp
        ms := ms_data * 10
        value := data_value }
  else
    none

/-- The substrings `_parse_dtl_file` looks for in the filename to select
integer value encoding. -/
def door_patterns : List String :=
  ["DataLogDoorDays", "DataLogDoorMonth", "DataLogDoorYear"]

/-- `use_integer_encoding` as computed in `_parse_dtl_file`:
`any(pattern in filepath.name for pattern in door_patterns)`. -/
def use_integer_encoding (name : String) : Bool :=
  door_patterns.any (fun pattern => containsSubstr name pattern)

/-- State of a path in the modelled filesystem: missing, raising `OSError`
on access, or present with the given content bytes. -/
inductive FileState where
  | absent
  | ioErr
  | contents (bytes : List Nat)
  deriving DecidableEq

/-- A filesystem: maps (directory root, filename) to a state. -/
def FS : Type := String → String → FileState

/-- `DTLWebProcessor._validate_dtl_file`: `True` iff the file exists, its size
is at least the header length and the remainder is a multiple of 9; any
`OSError` is caught and yields `False` (fail-closed). -/
def validate_dtl_file (fs : FS) (root name : String) (header_length : Nat) : Bool :=
  match fs root name with
  | .absent => false
  | .ioErr => false
  | .contents bytes =>
      let file_size := bytes.length
      if file_size < header_length then false
      else decide ((file_size - header_length) % 9 = 0)

/-- Successive complete 9-byte windows of a byte list; a final window of
fewer than 9 bytes is discarded (`file.read(9)` loop in `_parse_dtl_file`). -/
def chunks9 : List Nat → List (List Nat)
  | b0 :: b1 :: b2 :: b3 :: b4 :: b5 :: b6 :: b7 :: b8 :: rest =>
      [b0, b1, b2, b3, b4, b5, b6, b7, b8] :: chunks9 rest
  | _ => []

/-- Sort-key order used by `df.sort_values(["date_full", "time_full"])`:
lexicographic on the (date string, time string) pair.  Python compares
strings by code point, as Lean's `String` order does. -/
def recKeyLE (a b : DtlRecord) : Prop :=
  a.date_full < b.date_full ∨
    (a.date_full = b.date_full ∧ a.time_full ≤ b.time_full)

instance : DecidableRel recKeyLE := fun a b => by
  unfold recKeyLE
  infer_instance

instance : IsTotal DtlRecord recKeyLE where
  total a b := by
    unfold recKeyLE
    rcases lt_trichotomy a.date_full b.date_full with h | h | h
    · exact Or.inl (Or.inl h)
    · rcases le_total a.time_full b.time_full with h' | h'
      · exact Or.inl (Or.inr ⟨h, h'⟩)
      · exact Or.inr (Or.inr ⟨h.symm, h'⟩)
    · exact Or.inr (Or.inl h)

instance : IsTrans DtlRecord recKeyLE where
  trans a b c hab hbc := by
    unfold recKeyLE at *
    rcases hab with hab | ⟨hab, hab'⟩ <;> rcases hbc with hbc | ⟨hbc, hbc'⟩
    · exact Or.inl (hab.trans hbc)
    · exact Or.inl (hbc ▸ hab)
    · exact Or.inl (hab ▸ hbc)
    · exact Or.inr ⟨hab.trans hbc, hab'.trans hbc'⟩

/-- `DTLWebProcessor._parse_dtl_file`: validate, then decode every complete
9-byte packet after the header and sort the surviving records by
(date, time).  The returned list stands for the dataframe rows; the empty
list is the explicitly empty dataframe.  `df.sort_values` is a comparison
sort on the key with unspecified tie order; insertion sort is the
executable stand-in (same key order, same multiset of rows). -/
def parse_dtl_file (fs : FS) (tz : Int) (root name : String)
    (header_length : Nat) : List DtlRecord :=
  let useInt := use_integer_encoding name
  if validate_dtl_file fs root name header_length then
    match fs root name with
    | .contents bytes =>
        let body := bytes.drop header_length
        let records := (chunks9 body).filterMap
          (fun packet => decode_dtl_packet packet useInt tz)
        List.insertionSort recKeyLE records
    | _ => []
  else []

/-- `fnmatch` glob matching as used on the registry patterns: `*` matches any
character sequence, `?` any single character, every other character itself.
(POSIX `fnmatch.fnmatch` is case-sensitive on this platform; the registry
patterns use no `[...]` classes.)  Structural recursion on a fuel argument;
every recursive call shrinks `pattern.length + s.length`, so the fuel
`globMatch` supplies is never exhausted. -/
def globMatchFuel : Nat → List Char → List Char → Bool
  | 0, _, _ => false
  | _ + 1, [], [] => true
  | fuel + 1, '*' :: ps, [] => globMatchFuel fuel ps []
  | _ + 1, _ :: _, [] => false
  | _ + 1, [], _ :: _ => false
  | fuel + 1, '*' :: ps, c :: cs =>
      globMatchFuel fuel ps (c :: cs) || globMatchFuel fuel ('*' :: ps) cs
  | fuel + 1, p :: ps, c :: cs => (p == '?' || p == c) && globMatchFuel fuel ps cs

/-- Glob matching with sufficient fuel. -/
def globMatch (pattern s : List Char) : Bool :=
  globMatchFuel (pattern.length + s.length + 1) pattern s

/-- The `fnmatch` wrapper at module level: does `filename` match `pattern`? -/
def fnmatch (filename pattern : String) : Bool :=
  globMatch pattern.data filename.data

/-- `DTLWebProcessor._get_file_type_definitions()`: the static registry, in
source (insertion) order — (type identifier, glob pattern, header length). -/
def file_type_definitions : List (String × String × Nat) :=
  [("co2days", "*DataLogCO2Days.dtl", 39),
   ("co2months", "*DataLogCO2Months.dtl", 44),
   ("co2year", "*DataLogCO2Year.dtl", 43),
   ("doorclose", "*DataLogDoorClose.dtl", 46),
   ("doordays", "*DataLogDoorDays.dtl", 39),
   ("doormonth", "*DataLogDoorMonth.dtl", 44),
   ("dooropen", "*DataLogDoorOpen.dtl", 46),
   ("dooryear", "*DataLogDoorYear.dtl", 43),
   ("wastedays", "*DataLogWasteDays.dtl", 39),
   ("wastemont", "*DataLogWasteMont.dtl", 44),
   ("wasteyear", "*DataLogWasteYear.dtl", 43),
   ("weightdiff", "*DataLogWeighDiff.dtl", 46),
   ("trendtemp", "*TrendTemperature.dtl", 46),
   ("weightday", "*WeightDay.dtl", 46)]

/-- One entry of a `found_files` list: the dict
`{"path": root/filename, "filename": filename, "header_length": h}`.
The path is kept as its (root, filename) components. -/
structure FileInfo where
  root : String
  filename : String
  header_length : Nat
  deriving DecidableEq, Repr

/-- The inner loop of `_count_file_types_recursively`: the first registry
entry whose pattern matches the filename, with its header length. -/
def classify (registry : List (String × String × Nat)) (filename : String) :
    Option (String × Nat) :=
  match registry with
  | [] => none
  | (file_type, pattern, header_length) :: rest =>
      if fnmatch filename pattern then some (file_type, header_length)
      else classify rest filename

/-- The `.dtl` extension filter: `filename.lower().endswith(".dtl")`. -/
def hasDtlSuffix (filename : String) : Bool :=
  endsWithChars (lowerChars filename.data) ".dtl".data

/-- Result of `_count_file_types_recursively` (`FileDiscovery`); the per-type
dicts are represented as functions from registry keys. -/
structure FileDiscovery where
  type_counts : String → Nat
  total_recognized : Nat
  unrecognized_count : Nat
  found_files : String → List FileInfo

/-- The walked directory tree: the (root, filename) pairs `os.walk` yields,
in walk order. -/
abbrev Walk : Type := List (String × String)

/-- Processing of one walked file in `_count_file_types_recursively`:
skip non-`.dtl` names entirely, otherwise record the first pattern match or
count the file as unrecognized. -/
def scanStep (d : FileDiscovery) (entry : String × String) : FileDiscovery :=
  let (root, filename) := entry
  if hasDtlSuffix filename then
    match classify file_type_definitions filename with
    | some (file_type, header_length) =>
        { d with
          type_counts := fun t =>
            if t = file_type then d.type_counts t + 1 else d.type_counts t
          total_recognized := d.total_recognized + 1
          found_files := fun t =>
            if t = file_type then
              d.found_files t ++ [⟨root, filename, header_length⟩]
            else d.found_files t }
    | none => { d with unrecognized_count := d.unrecognized_count + 1 }
  else d

/-- `DTLWebProcessor._count_file_types_recursively`: fold the scan step over
the walked files, starting from all-empty per-type tables. -/
def count_file_types_recursively (walk : Walk) : FileDiscovery :=
  walk.foldl scanStep
    { type_counts := fun _ => 0
      total_recognized := 0
      unrecognized_count := 0
      found_files := fun _ => [] }

/-- `PurePath.stem` for a bare filename: the name with its last suffix
removed; a leading or trailing dot does not delimit a suffix. -/
def stem (name : String) : String :=
  match (List.range name.data.length).filter
      (fun i => name.data.getD i ' ' == '.') |>.getLast? with
  | some i => if 0 < i ∧ i < name.data.length - 1 then
      String.mk (name.data.take i) else name
  | none => name

/-- `DecodedFile` (decoded dataframe plus metadata); `records` stands for the
dataframe, `[]` for an empty one. -/
structure DecodedFile where
  records : List DtlRecord
  file_type : String
  source_root : String
  original_filename : String
  base_filename : String
  record_count : Nat
  deriving DecidableEq, Repr

/-- `DecodedFile.is_empty`. -/
def DecodedFile.is_empty (d : DecodedFile) : Bool :=
  d.records.isEmpty

/-- Python-dict upsert: assigning `m[key] = v` keeps the key's original
insertion position but replaces its value; a new key is appended. -/
def dictInsert (m : List (String × DecodedFile)) (key : String)
    (v : DecodedFile) : List (String × DecodedFile) :=
  match m with
  | [] => [(key, v)]
  | (k, w) :: rest =>
      if k = key then (k, v) :: rest else (k, w) :: dictInsert rest key v

/-- Decoding of a single discovered file into its `DecodedFile`
(the loop body of `_decode_all_files`). -/
def decodeOne (fs : FS) (tz : Int) (file_type : String) (info : FileInfo) :
    DecodedFile :=
  let df := parse_dtl_file fs tz info.root info.filename info.header_length
  let original_filename := info.filename
  let base_filename := stem original_filename
  { records := df
    file_type := file_type
    source_root := info.root
    original_filename := original_filename
    base_filename := base_filename
    record_count := df.length }

/-- `DTLWebProcessor._decode_all_files`: iterate the found-files groups in
registry order and write each decoded file into a dict keyed by its base
filename (so a later file with the same base filename overwrites an earlier
one). -/
def decode_all_files (fs : FS) (tz : Int)
    (found : List (String × List FileInfo)) : List (String × DecodedFile) :=
  found.foldl
    (fun acc group =>
      group.2.foldl
        (fun acc info =>
          let decoded := decodeOne fs tz group.1 info
          dictInsert acc decoded.base_filename decoded)
        acc)
    []

/-- Characters allowed to remain in an archive label by
`_sanitize_archive_label`. -/
def labelAllowed (c : Char) : Bool :=
  (('A' ≤ c && c ≤ 'Z') || ('a' ≤ c && c ≤ 'z') || ('0' ≤ c && c ≤ '9')
    || c == '_' || c == '-')

/-- Collapse runs of two or more `-` into a single `-`
(`re.sub(r"-{2,}", "-", ...)`). -/
def collapseDashes : List Char → List Char
  | [] => []
  | [c] => [c]
  | c1 :: c2 :: rest =>
      if c1 == '-' && c2 == '-' then collapseDashes (c2 :: rest)
      else c1 :: collapseDashes (c2 :: rest)

/-- Strip the given characters from both ends of a character list. -/
def stripChars (bad : List Char) (s : List Char) : List Char :=
  ((s.dropWhile bad.contains).reverse.dropWhile bad.contains).reverse

/-- ASCII whitespace stripped by Python's `str.strip()`. -/
def pyWhitespace : List Char :=
  [' ', '\t', '\n', '\r', '\x0b', '\x0c']

/-- `DTLWebProcessor._sanitize_archive_label`: strip whitespace, replace every
run of characters outside `[A-Za-z0-9_-]` by `-`, collapse `-` runs, strip
`-`/`_` from the ends, and fall back to the default label if nothing is
left. -/
def sanitize_archive_label (label : String) : String :=
  let stripped := stripChars pyWhitespace label.data
  let subst := stripped.map (fun c => if labelAllowed c then c else '-')
  let sanitized := stripChars ['-', '_'] (collapseDashes subst)
  if sanitized.isEmpty then "Syker_Processed_Data" else String.mk sanitized

/-- The per-file-type value-column labels in `_column_mapping`. -/
def value_columns : List (String × String) :=
  [("co2days", "CO2 Emissions Prevented (kg)"),
   ("co2months", "CO2 Emissions Prevented (kg)"),
   ("co2year", "CO2 Emissions Prevented (kg)"),
   ("doorclose", "Instances of Door Closures"),
   ("doordays", "Instances of Door Actions"),
   ("doormonth", "Door Openings per Day"),
   ("dooropen", "Instances of Door Openings"),
   ("dooryear", "Door Openings per Day"),
   ("wastedays", "Cummulative Waste per Day (kg)"),
   ("wastemont", "Total Waste per Day (kg)"),
   ("wasteyear", "Total Waste per day (kg)"),
   ("weightdiff", "Weight Difference across door open and close (kg)"),
   ("trendtemp", "Recorded Temperature (Â°C)"),
   ("weightday", "Recorded Weight (kg)")]

/-- The dataframe's internal column names, in dataframe order. -/
def internal_columns : List String :=
  ["date_full", "time_full", "ms", "value"]

/-- `DTLWebProcessor._column_mapping`: internal column name to human-readable
header, the value label being file-type specific (default `"Value"`). -/
def column_mapping (file_type : String) : List (String × String) :=
  [("date_full", "Date"),
   ("time_full", "Time"),
   ("ms", "Milliseconds"),
   ("value", ((value_columns.lookup file_type).getD "Value"))]

/-- Python `dict.update`: keys of `base` keep their position but take the
value from `custom` when present; keys only in `custom` are appended. -/
def dictUpdate (base custom : List (String × String)) :
    List (String × String) :=
  (base.map (fun kv =>
    match custom.lookup kv.1 with
    | some v => (kv.1, v)
    | none => kv))
  ++ custom.filter (fun kv => (base.lookup kv.1).isNone)

/-- The header row `df_export.to_excel` writes for one decoded file: an empty
dataframe is copied unrenamed (internal column names), a non-empty one is
renamed through the (possibly custom-updated) column mapping. -/
def exportHeaders (decoded : DecodedFile) (custom : List (String × String)) :
    List String :=
  if decoded.records.isEmpty then internal_columns
  else
    let mapping := dictUpdate (column_mapping decoded.file_type) custom
    internal_columns.map (fun c => (mapping.lookup c).getD c)

/-- `ExportedFile`: manifest entry for one rendered spreadsheet; the relative
path is kept as its components
`[folder_name, file_type, base_filename ++ ".xlsx"]`. -/
structure ExportedFile where
  file_type : String
  relative_path : List String
  record_count : Nat
  deriving DecidableEq, Repr

/-- One spreadsheet as written to disk: its path components, header row and
data rows (a row per decoded record). -/
structure WrittenFile where
  path : List String
  headers : List String
  rows : List DtlRecord
  deriving DecidableEq, Repr

/-- The manifest entry `_export_to_excel` appends for one decoded file. -/
def exportArtifact (folder_name : String) (d : DecodedFile) : ExportedFile :=
  { file_type := d.file_type
    relative_path := [folder_name, d.file_type, d.base_filename ++ ".xlsx"]
    record_count := d.record_count }

/-- The spreadsheet `df_export.to_excel` writes for one decoded file. -/
def exportWritten (folder_name : String) (custom : List (String × String))
    (d : DecodedFile) : WrittenFile :=
  { path := [folder_name, d.file_type, d.base_filename ++ ".xlsx"]
    headers := exportHeaders d custom
    rows := d.records }

/-- The loop body of `_export_to_excel`: append the manifest entry, bump the
per-type counter, write the spreadsheet. -/
def exportStep (folder_name : String) (custom : List (String × String))
    (st : List ExportedFile × (String → Nat) × List WrittenFile)
    (kv : String × DecodedFile) :
    List ExportedFile × (String → Nat) × List WrittenFile :=
  (st.1 ++ [exportArtifact folder_name kv.2],
   fun t => if t = kv.2.file_type then st.2.1 t + 1 else st.2.1 t,
   st.2.2 ++ [exportWritten folder_name custom kv.2])

/-- `DTLWebProcessor._export_to_excel` over the decoded dict, in dict order:
per-type folder, rename (or not, when empty), write, count by type.  The
`openpyxl` import probe is an environment check with no bearing on the
output values and is not modelled. -/
def export_to_excel (decoded : List (String × DecodedFile))
    (folder_name : String) (custom : List (String × String)) :
    List ExportedFile × (String → Nat) × List WrittenFile :=
  decoded.foldl (exportStep folder_name custom) ([], fun _ => 0, [])

/-- `DTLProcessingError` conditions raised by the pipeline drivers. -/
inductive PipelineError where
  | badDirectory
  | noRecognizedFiles
  | emptyUploadBatch
  deriving DecidableEq, Repr

/-- `ProcessingSummary`. -/
structure ProcessingSummary where
  recognized_files : Nat
  unrecognized_files : Nat
  files_by_type : String → Nat
  empty_files : List String
  failed_files : List String

/-- `ProcessingResult`; the written spreadsheets stand in for the ZIP bytes
(the archive contains exactly the files written under the export root). -/
structure ProcessingResult where
  zip_filename : String
  summary : ProcessingSummary
  exported_files : List ExportedFile
  written : List WrittenFile

/-- Observable side effects of a pipeline run, in program order. -/
inductive Event where
  | tempDirCreated
  | materialisedUploads
  | exportRootCreated
  | wroteExcel (path : List String)
  deriving DecidableEq, Repr

/-- The directory handed to `process_directory`: existence and kind flags,
the `os.walk` listing, and the file contents. -/
structure Dir where
  present : Bool
  isDir : Bool
  walk : Walk
  fs : FS

/-- The found-files dict as `_decode_all_files` iterates it: registry keys in
registry order, each with its discovered files. -/
def foundGroups (discovery : FileDiscovery) : List (String × List FileInfo) :=
  file_type_definitions.map (fun e => (e.1, discovery.found_files e.1))

/-- `DTLWebProcessor.process_directory`: raise on a missing/non-directory
target, scan, raise when nothing was recognized, then decode, export and
summarise.  `today` is the `%Y%m%d` date stamp `datetime.now` yields. -/
def process_directory (d : Dir) (tz : Int) (custom : List (String × String))
    (archive_label : Option String) (today : String) :
    Except PipelineError ProcessingResult × List Event :=
  if ¬(d.present && d.isDir) then (.error .badDirectory, [])
  else
    let discovery := count_file_types_recursively d.walk
    if discovery.total_recognized = 0 then (.error .noRecognizedFiles, [])
    else
      let decoded := decode_all_files d.fs tz (foundGroups discovery)
      let base_label_input :=
        match archive_label with
        | some s => if s = "" then "Syker_Processed_Data" else s
        | none => "Syker_Processed_Data"
      let folder_name := sanitize_archive_label base_label_input ++ "-Converted" ++ today
      let result := export_to_excel decoded folder_name custom
      let empty_files := (decoded.filter (fun kv => kv.2.is_empty)).map
        (fun kv => kv.2.original_filename)
      let summary : ProcessingSummary :=
        { recognized_files := discovery.total_recognized
          unrecognized_files := discovery.unrecognized_count
          files_by_type := result.2.1
          empty_files := empty_files
          failed_files := [] }
      (.ok
        { zip_filename := folder_name ++ ".zip"
          summary := summary
          exported_files := result.1
          written := result.2.2 },
       .exportRootCreated :: result.2.2.map (fun w => .wroteExcel w.path))

/-- `UploadedItem`. -/
structure UploadedItem where
  filename : String
  content : List Nat
  deriving DecidableEq, Repr

/-- `DTLWebProcessor.process_uploads`: an empty batch raises before the
temporary directory is created; otherwise the uploads are materialised into
a temporary tree and `process_directory` runs on it.  `materialised` is the
directory state `_materialise_uploads` produces from the batch. -/
def process_uploads (uploads : List UploadedItem) (materialised : Dir)
    (tz : Int) (custom : List (String × String)) (archive_label : Option String)
    (today : String) : Except PipelineError ProcessingResult × List Event :=
  if uploads.isEmpty then (.error .emptyUploadBatch, [])
  else
    let r := process_directory materialised tz custom archive_label today
    (r.1, .tempDirCreated :: .materialisedUploads :: r.2)

/-- Split a character list on `/`, keeping empty segments. -/
def splitSlash : List Char → List Char → List (List Char)
  | [], acc => [acc.reverse]
  | '/' :: rest, acc => acc.reverse :: splitSlash rest []
  | c :: rest, acc => splitSlash rest (c :: acc)

/-- `PurePosixPath(s).parts`: a root part (`"/"`, or `"//"` for exactly two
leading slashes) when the path is absolute, followed by the non-empty,
non-`"."` segments. -/
def posixParts (s : String) : List String :=
  let segs := ((splitSlash s.data []).filter
    (fun seg => seg ≠ [] && seg ≠ ['.'])).map String.mk
  if startsWithChars ['/', '/'] s.data && !startsWithChars ['/', '/', '/'] s.data then
    "//" :: segs
  else if startsWithChars ['/'] s.data then
    "/" :: segs
  else segs

/-- `DTLWebProcessor._safe_relative_path`: drop the parts equal to `".."` or
`""` and rebuild a path from the rest, with a fixed fallback name when
nothing remains.  The result is the parts list of the returned `Path`. -/
def safe_relative_path (filename : String) : List String :=
  let normalized_parts := (posixParts filename).filter
    (fun part => part ≠ ".." && part ≠ "")
  if normalized_parts.isEmpty then ["unnamed_uploaded_file.dtl"]
  else normalized_parts

/-- `pathlib`'s `/` on parts lists: an absolute right operand (leading root
part) replaces the left operand entirely. -/
def pathJoin (base rel : List String) : List String :=
  if rel.head? = some "/" || rel.head? = some "//" then rel else base ++ rel

/-- Filesystem with two same-named files under different roots: the one
under `r1` fails validation (40 bytes against a 39-byte header leaves a
1-byte body), the one under `r2` holds one valid packet. -/
def fsTwin : FS := fun root name =>
  if root = "r1" && name = "A_DataLogCO2Days.dtl" then
    .contents (List.replicate 40 0)
  else if root = "r2" && name = "A_DataLogCO2Days.dtl" then
    .contents (List.replicate 39 0 ++ [0, 0, 0, 0, 5, 1, 2, 3, 4])
  else .absent

/-- Directory whose walk yields the two same-base files of `fsTwin`. -/
def dirTwin : Dir :=
  { present := true, isDir := true
    walk := [("r1", "A_DataLogCO2Days.dtl"), ("r2", "A_DataLogCO2Days.dtl")]
    fs := fsTwin }

/-- Filesystem with one recognized file holding two out-of-order packets
(timestamps 65536 then 0) after the 39-byte co2days header. -/
def fsSorted : FS := fun root name =>
  if root = "r" && name = "B_DataLogCO2Days.dtl" then
    .contents (List.replicate 39 7 ++
      [0, 0, 1, 0, 0, 9, 9, 9, 9] ++ [0, 0, 0, 0, 0, 1, 2, 3, 4])
  else .absent

/-- An empty decoded table for an otherwise well-formed co2days file. -/
def emptyDecodedCO2 : DecodedFile :=
  { records := []
    file_type := "co2days"
    source_root := "r"
    original_filename := "E_DataLogCO2Days.dtl"
    base_filename := "E_DataLogCO2Days"
    record_count := 0 }

/-- A one-record decoded table for a co2days file. -/
def oneRowDecodedCO2 : DecodedFile :=
  { records := [{ date_full := "1970-01-01", time_full := "00:00:00",
                  ms := 50, value := .floatVal (leU32 1 2 3 4) }]
    file_type := "co2days"
    source_root := "r"
    original_filename := "F_DataLogCO2Days.dtl"
    base_filename := "F_DataLogCO2Days"
    record_count := 1 }

/-- A directory that does not exist. -/
def missingDir : Dir :=
  { present := false, isDir := true, walk := [], fs := fun _ _ => .absent }

/-- An existing, empty directory. -/
def emptyWalkDir : Dir :=
  { present := true, isDir := true, walk := [], fs := fun _ _ => .absent }

/-- Directory holding only the invalid `r1` file of `fsTwin`. -/
def dirSingleInvalid : Dir :=
  { present := true, isDir := true
    walk := [("r1", "A_DataLogCO2Days.dtl")]
    fs := fsTwin }

/-! ## Characterization lemmas for the discovery scan -/

/-- What the scan does with one walked file, as a single optional
classification: `none` for skipped or unmatched files, otherwise the
matched type with the recorded `FileInfo`. -/
def discEntry (e : String × String) : Option (String × FileInfo) :=
  if hasDtlSuffix e.2 then
    (classify file_type_definitions e.2).map
      (fun th => (th.1, ⟨e.1, e.2, th.2⟩))
  else none

theorem scanFound_eq (walk : Walk) (d : FileDiscovery) (t : String) :
    (walk.foldl scanStep d).found_files t =
      d.found_files t ++
        ((walk.filterMap discEntry).filter (fun p => p.1 == t)).map Prod.snd := by
  induction walk generalizing d with
  | nil => simp
  | cons e rest ih =>
      obtain ⟨root, fn⟩ := e
      rw [List.foldl_cons, ih]
      by_cases hdtl : hasDtlSuffix fn
      · rcases hcls : classify file_type_definitions fn with _ | ⟨ft, hl⟩
        · simp [scanStep, discEntry, hdtl, hcls]
        · by_cases ht : t = ft
          · subst ht
            simp [scanStep, discEntry, hdtl, hcls]

          · simp [scanStep, discEntry, hdtl, hcls, ht, Ne.symm ht]
      · simp [scanStep, discEntry, hdtl]

theorem scanUnrecognized_eq (walk : Walk) (d : FileDiscovery) :
    (walk.foldl scanStep d).unrecognized_count =
      d.unrecognized_count +
        (walk.filter (fun e => hasDtlSuffix e.2 &&
          (classify file_type_definitions e.2).isNone)).length := by
  induction walk generalizing d with
  | nil => simp
  | cons e rest ih =>
      obtain ⟨root, fn⟩ := e
      rw [List.foldl_cons, ih]
      by_cases hdtl : hasDtlSuffix fn
      · rcases hcls : classify file_type_definitions fn with _ | ⟨ft, hl⟩
        · simp [scanStep, hdtl, hcls]
          omega
        · simp [scanStep, hdtl, hcls]
      · simp [scanStep, hdtl]

theorem scanRecognized_eq (walk : Walk) (d : FileDiscovery) :
    (walk.foldl scanStep d).total_recognized =
      d.total_recognized + (walk.filterMap discEntry).length := by
  induction walk generalizing d with
  | nil => simp
  | cons e rest ih =>
      obtain ⟨root, fn⟩ := e
      rw [List.foldl_cons, ih]
      by_cases hdtl : hasDtlSuffix fn
      · rcases hcls : classify file_type_definitions fn with _ | ⟨ft, hl⟩
        · simp [scanStep, discEntry, hdtl, hcls]
        · simp [scanStep, discEntry, hdtl, hcls]
          omega
      · simp [scanStep, discEntry, hdtl]

/-- `classify` returns exactly the first registry entry whose pattern
matches, i.e. the loop's `break` realises first-match-wins. -/
theorem classify_eq_first_match (registry : List (String × String × Nat))
    (filename : String) :
    classify registry filename =
      (registry.find? (fun e => fnmatch filename e.2.1)).map
        (fun e => (e.1, e.2.2)) := by
  induction registry with
  | nil => rfl
  | cons e rest ih =>
      obtain ⟨t₀, p₀, h₀⟩ := e
      by_cases hm : fnmatch filename p₀
      · simp [classify, hm, List.find?]
      · simp [classify, hm, List.find?, ih]

/-! ## Characterization lemmas for export and the base-filename dict -/

theorem export_foldl_fst (folder_name : String) (custom : List (String × String))
    (decoded : List (String × DecodedFile))
    (st : List ExportedFile × (String → Nat) × List WrittenFile) :
    (decoded.foldl (exportStep folder_name custom) st).1 =
      st.1 ++ decoded.map (fun kv => exportArtifact folder_name kv.2) := by
  induction decoded generalizing st with
  | nil => simp
  | cons kv rest ih =>
      rw [List.foldl_cons, ih]
      simp [exportStep]

theorem export_foldl_written (folder_name : String)
    (custom : List (String × String)) (decoded : List (String × DecodedFile))
    (st : List ExportedFile × (String → Nat) × List WrittenFile) :
    (decoded.foldl (exportStep folder_name custom) st).2.2 =
      st.2.2 ++ decoded.map (fun kv => exportWritten folder_name custom kv.2) := by
  induction decoded generalizing st with
  | nil => simp
  | cons kv rest ih =>
      rw [List.foldl_cons, ih]
      simp [exportStep]

theorem export_fst_eq (decoded : List (String × DecodedFile))
    (folder_name : String) (custom : List (String × String)) :
    (export_to_excel decoded folder_name custom).1 =
      decoded.map (fun kv => exportArtifact folder_name kv.2) := by
  unfold export_to_excel
  rw [export_foldl_fst]
  rfl

theorem export_written_eq (decoded : List (String × DecodedFile))
    (folder_name : String) (custom : List (String × String)) :
    (export_to_excel decoded folder_name custom).2.2 =
      decoded.map (fun kv => exportWritten folder_name custom kv.2) := by
  unfold export_to_excel
  rw [export_foldl_written]
  rfl

theorem dictInsert_lookup_self (m : List (String × DecodedFile)) (k : String)
    (v : DecodedFile) : (dictInsert m k v).lookup k = some v := by
  induction m with
  | nil => simp [dictInsert, List.lookup]
  | cons p rest ih =>
      obtain ⟨pk, pv⟩ := p
      by_cases hk : pk = k
      · subst hk
        simp [dictInsert, List.lookup]
      · have hbeq : (k == pk) = false := beq_eq_false_iff_ne.mpr (Ne.symm hk)
        simp [dictInsert, hk, List.lookup, hbeq, ih]

theorem dictInsert_lookup_ne (m : List (String × DecodedFile)) (k k' : String)
    (v : DecodedFile) (h : k' ≠ k) :
    (dictInsert m k v).lookup k' = m.lookup k' := by
  have hbeq : (k' == k) = false := beq_eq_false_iff_ne.mpr h
  induction m with
  | nil => simp [dictInsert, List.lookup, hbeq]
  | cons p rest ih =>
      obtain ⟨pk, pv⟩ := p
      by_cases hk : pk = k
      · subst hk
        simp [dictInsert, List.lookup, hbeq]
      · by_cases hk' : k' = pk
        · subst hk'
          simp [dictInsert, hk, List.lookup]
        · have hbeq' : (k' == pk) = false := beq_eq_false_iff_ne.mpr hk'
          simp [dictInsert, hk, List.lookup, hbeq', ih]

theorem mem_of_lookup_eq_some (m : List (String × DecodedFile)) (k : String)
    (v : DecodedFile) (h : m.lookup k = some v) : (k, v) ∈ m := by
  induction m with
  | nil => simp [List.lookup] at h
  | cons p rest ih =>
      obtain ⟨pk, pv⟩ := p
      by_cases hk : k = pk
      · subst hk
        rw [List.lookup_cons] at h
        simp at h
        simp [h]
      · rw [List.lookup_cons] at h
        have hbeq : (k == pk) = false := beq_eq_false_iff_ne.mpr hk
        rw [hbeq] at h
        exact List.mem_cons_of_mem _ (ih h)

theorem dictInsert_length_of_isSome (m : List (String × DecodedFile))
    (k : String) (v : DecodedFile) (h : (m.lookup k).isSome) :
    (dictInsert m k v).length = m.length := by
  induction m with
  | nil => simp [List.lookup] at h
  | cons p rest ih =>
      obtain ⟨pk, pv⟩ := p
      by_cases hk : pk = k
      · subst hk
        simp [dictInsert]
      · rw [List.lookup_cons] at h
        have hbeq : (k == pk) = false := beq_eq_false_iff_ne.mpr (Ne.symm hk)
        rw [hbeq] at h
        simp [dictInsert, hk, ih h]

theorem dictInsert_length_le (m : List (String × DecodedFile)) (k : String)
    (v : DecodedFile) : (dictInsert m k v).length ≤ m.length + 1 := by
  induction m with
  | nil => simp [dictInsert]
  | cons p rest ih =>
      obtain ⟨pk, pv⟩ := p
      by_cases hk : pk = k
      · subst hk
        simp [dictInsert]
      · simp [dictInsert, hk]
        omega

theorem dictInsert_lookup_isSome (m : List (String × DecodedFile))
    (k k' : String) (v : DecodedFile) (h : (m.lookup k').isSome) :
    ((dictInsert m k v).lookup k').isSome := by
  by_cases hk : k' = k
  · subst hk
    rw [dictInsert_lookup_self]
    rfl
  · rw [dictInsert_lookup_ne m k k' v hk]
    exact h

/-- The discovered files in the order `_decode_all_files` processes them:
groups in registry order, each group's files in discovery order. -/
def flattenFound (found : List (String × List FileInfo)) :
    List (String × FileInfo) :=
  found.flatMap (fun g => g.2.map (fun i => (g.1, i)))

/-- The dict-building fold of `_decode_all_files`, over the flattened file
sequence. -/
def decodeFlat (fs : FS) (tz : Int) (acc : List (String × DecodedFile))
    (l : List (String × FileInfo)) : List (String × DecodedFile) :=
  l.foldl
    (fun acc p =>
      let decoded := decodeOne fs tz p.1 p.2
      dictInsert acc decoded.base_filename decoded)
    acc

theorem decodeFlat_append (fs : FS) (tz : Int)
    (acc : List (String × DecodedFile)) (l₁ l₂ : List (String × FileInfo)) :
    decodeFlat fs tz acc (l₁ ++ l₂) = decodeFlat fs tz (decodeFlat fs tz acc l₁) l₂ := by
  unfold decodeFlat
  rw [List.foldl_append]

theorem decode_all_files_eq_decodeFlat (fs : FS) (tz : Int)
    (found : List (String × List FileInfo)) :
    decode_all_files fs tz found = decodeFlat fs tz [] (flattenFound found) := by
  suffices h : ∀ (found : List (String × List FileInfo))
      (acc : List (String × DecodedFile)),
      found.foldl
        (fun acc group =>
          group.2.foldl
            (fun acc info =>
              let decoded := decodeOne fs tz group.1 info
              dictInsert acc decoded.base_filename decoded)
            acc)
        acc = decodeFlat fs tz acc (flattenFound found) by
    exact h found []
  intro found
  induction found with
  | nil =>
      intro acc
      simp [flattenFound, decodeFlat]
  | cons g rest ih =>
      intro acc
      rw [List.foldl_cons]
      rw [ih]
      unfold flattenFound
      rw [List.flatMap_cons, ← flattenFound, decodeFlat_append]
      congr 1
      unfold decodeFlat
      rw [List.foldl_map]

theorem decodeFlat_lookup_preserve (fs : FS) (tz : Int)
    (l : List (String × FileInfo)) (acc : List (String × DecodedFile))
    (k : String) (h : ∀ p ∈ l, stem p.2.filename ≠ k) :
    (decodeFlat fs tz acc l).lookup k = acc.lookup k := by
  induction l generalizing acc with
  | nil => rfl
  | cons p rest ih =>
      unfold decodeFlat
      rw [List.foldl_cons]
      have hstep := ih (dictInsert acc (decodeOne fs tz p.1 p.2).base_filename
        (decodeOne fs tz p.1 p.2)) (fun q hq => h q (List.mem_cons_of_mem _ hq))
      unfold decodeFlat at hstep
      rw [hstep]
      exact dictInsert_lookup_ne _ _ _ _
        (fun hk => h p (List.mem_cons_self _ _) hk.symm)

theorem decodeFlat_lookup_isSome (fs : FS) (tz : Int)
    (l : List (String × FileInfo)) (acc : List (String × DecodedFile))
    (k : String) (h : (acc.lookup k).isSome) :
    ((decodeFlat fs tz acc l).lookup k).isSome := by
  induction l generalizing acc with
  | nil => exact h
  | cons p rest ih =>
      unfold decodeFlat
      rw [List.foldl_cons]
      exact ih _ (dictInsert_lookup_isSome _ _ _ _ h)

theorem decodeFlat_length_le (fs : FS) (tz : Int)
    (l : List (String × FileInfo)) (acc : List (String × DecodedFile)) :
    (decodeFlat fs tz acc l).length ≤ acc.length + l.length := by
  induction l generalizing acc with
  | nil => simp [decodeFlat]
  | cons p rest ih =>
      unfold decodeFlat
      rw [List.foldl_cons]
      have hstep := ih (dictInsert acc (decodeOne fs tz p.1 p.2).base_filename
        (decodeOne fs tz p.1 p.2))
      unfold decodeFlat at hstep
      refine hstep.trans ?_
      have := dictInsert_length_le acc (decodeOne fs tz p.1 p.2).base_filename
        (decodeOne fs tz p.1 p.2)
      simp only [List.length_cons]
      omega

theorem decodeFlat_cons (fs : FS) (tz : Int)
    (acc : List (String × DecodedFile)) (p : String × FileInfo)
    (l : List (String × FileInfo)) :
    decodeFlat fs tz acc (p :: l) =
      decodeFlat fs tz
        (dictInsert acc (decodeOne fs tz p.1 p.2).base_filename
          (decodeOne fs tz p.1 p.2)) l := by
  unfold decodeFlat
  rw [List.foldl_cons]

/-- Last write wins: the dict entry for a base filename is the decode of the
last discovered file with that base filename. -/
theorem decodeFlat_lookup_last (fs : FS) (tz : Int)
    (l₁ l₂ : List (String × FileInfo)) (t : String) (info : FileInfo)
    (acc : List (String × DecodedFile))
    (hl₂ : ∀ p ∈ l₂, stem p.2.filename ≠ stem info.filename) :
    (decodeFlat fs tz acc (l₁ ++ (t, info) :: l₂)).lookup (stem info.filename) =
      some (decodeOne fs tz t info) := by
  rw [decodeFlat_append]
  have hcons : decodeFlat fs tz (decodeFlat fs tz acc l₁) ((t, info) :: l₂) =
      decodeFlat fs tz
        (dictInsert (decodeFlat fs tz acc l₁)
          (decodeOne fs tz t info).base_filename (decodeOne fs tz t info)) l₂ := by
    unfold decodeFlat
    rw [List.foldl_cons]
  rw [hcons]
  rw [decodeFlat_lookup_preserve fs tz l₂ _ _ hl₂]
  exact dictInsert_lookup_self _ _ _

theorem flatMap_filter_cons_length (keys : List String) (x : String × FileInfo)
    (L : List (String × FileInfo)) :
    (keys.flatMap (fun t => ((x :: L).filter (fun p => p.1 == t)))).length =
      keys.count x.1 +
        (keys.flatMap (fun t => (L.filter (fun p => p.1 == t)))).length := by
  induction keys with
  | nil => simp
  | cons k ks ih =>
      rw [List.flatMap_cons, List.length_append, ih, List.flatMap_cons,
        List.length_append, List.count_cons, List.filter_cons]
      by_cases hk : x.1 = k
      · have hb1 : (x.1 == k) = true := beq_iff_eq.mpr hk
        have hb2 : (k == x.1) = true := beq_iff_eq.mpr hk.symm
        simp only [hb1, hb2, if_true, List.length_cons]
        omega
      · have hb1 : (x.1 == k) = false := beq_eq_false_iff_ne.mpr hk
        have hb2 : (k == x.1) = false := beq_eq_false_iff_ne.mpr (Ne.symm hk)
        simp only [hb1, hb2, Bool.false_eq_true, if_false]
        omega

theorem flatMap_filter_length (keys : List String)
    (L : List (String × FileInfo)) (hnd : keys.Nodup)
    (hcov : ∀ p ∈ L, p.1 ∈ keys) :
    (keys.flatMap (fun t => (L.filter (fun p => p.1 == t)))).length = L.length := by
  induction L with
  | nil =>
      simp only [List.filter_nil, List.length_flatMap]
      apply List.sum_eq_zero
      intro x hx
      obtain ⟨t, _, rfl⟩ := List.mem_map.mp hx
      simp
  | cons x L' ih =>
      rw [flatMap_filter_cons_length,
        List.count_eq_one_of_mem hnd (hcov x (List.mem_cons_self x L')),
        ih (fun p hp => hcov p (List.mem_cons_of_mem x hp))]
      simp only [List.length_cons]
      omega

theorem discEntry_key_mem (e : String × String) (t : String) (info : FileInfo)
    (h : discEntry e = some (t, info)) :
    t ∈ file_type_definitions.map Prod.fst := by
  unfold discEntry at h
  by_cases hd : hasDtlSuffix e.2
  · rw [if_pos hd] at h
    obtain ⟨⟨ft, hl⟩, hce, hfb⟩ := Option.map_eq_some'.mp h
    obtain ⟨hft, _⟩ := Prod.mk.inj hfb
    subst hft
    rw [classify_eq_first_match] at hce
    obtain ⟨e', he', hfe⟩ := Option.map_eq_some'.mp hce
    have hmem := List.mem_of_find?_eq_some he'
    have h1 : e'.1 = ft := (Prod.mk.inj hfe).1
    exact List.mem_map.mpr ⟨e', hmem, h1⟩
  · rw [if_neg hd] at h
    exact Option.noConfusion h

theorem length_flattenFound (walk : Walk) :
    (flattenFound (foundGroups (count_file_types_recursively walk))).length =
      (walk.filterMap discEntry).length := by
  have hfound : ∀ t, (count_file_types_recursively walk).found_files t =
      (((walk.filterMap discEntry).filter (fun p => p.1 == t)).map Prod.snd) := by
    intro t
    unfold count_file_types_recursively
    rw [scanFound_eq]
    simp
  unfold flattenFound foundGroups
  rw [List.flatMap_map, List.length_flatMap]
  have hsum : (file_type_definitions.map (List.length ∘ fun e =>
      (((count_file_types_recursively walk).found_files e.1).map
        (fun i => (e.1, i))))).sum =
      (file_type_definitions.map (List.length ∘ fun e =>
        ((walk.filterMap discEntry).filter (fun p => p.1 == e.1)))).sum := by
    congr 1
    apply List.map_congr_left
    intro e _
    simp [hfound e.1]
  rw [hsum]
  have hflat : (file_type_definitions.map (List.length ∘ fun e =>
      ((walk.filterMap discEntry).filter (fun p => p.1 == e.1)))).sum =
      ((file_type_definitions.map Prod.fst).flatMap
        (fun t => ((walk.filterMap discEntry).filter (fun p => p.1 == t)))).length := by
    rw [List.length_flatMap, List.map_map]
    rfl
  rw [hflat]
  apply flatMap_filter_length
  · decide
  · intro p hp
    obtain ⟨e, _, hde⟩ := List.mem_filterMap.mp hp
    exact discEntry_key_mem e p.1 p.2 (by
      obtain ⟨p₁, p₂⟩ := p
      exact hde)

theorem total_recognized_eq (walk : Walk) :
    (count_file_types_recursively walk).total_recognized =
      (walk.filterMap discEntry).length := by
  unfold count_file_types_recursively
  rw [scanRecognized_eq]
  simp

/-! ## Lemmas for the parse path and the column mapping -/

theorem chunks9_spec (n : Nat) : ∀ l : List Nat, l.length = 9 * n →
    (chunks9 l).length = n ∧ ∀ c ∈ chunks9 l, c.length = 9 := by
  induction n with
  | zero =>
      intro l hl
      have hnil : l = [] := List.eq_nil_of_length_eq_zero (by omega)
      subst hnil
      simp [chunks9]
  | succ n ih =>
      intro l hl
      rcases l with _ | ⟨b0, l⟩
      · simp only [List.length_nil, List.length_cons] at hl
        omega
      rcases l with _ | ⟨b1, l⟩
      · simp only [List.length_nil, List.length_cons] at hl
        omega
      rcases l with _ | ⟨b2, l⟩
      · simp only [List.length_nil, List.length_cons] at hl
        omega
      rcases l with _ | ⟨b3, l⟩
      · simp only [List.length_nil, List.length_cons] at hl
        omega
      rcases l with _ | ⟨b4, l⟩
      · simp only [List.length_nil, List.length_cons] at hl
        omega
      rcases l with _ | ⟨b5, l⟩
      · simp only [List.length_nil, List.length_cons] at hl
        omega
      rcases l with _ | ⟨b6, l⟩
      · simp only [List.length_nil, List.length_cons] at hl
        omega
      rcases l with _ | ⟨b7, l⟩
      · simp only [List.length_nil, List.length_cons] at hl
        omega
      rcases l with _ | ⟨b8, rest⟩
      · simp only [List.length_nil, List.length_cons] at hl
        omega
      have hrest : rest.length = 9 * n := by
        simp only [List.length_cons] at hl
        omega
      obtain ⟨ih1, ih2⟩ := ih rest hrest
      refine ⟨?_, ?_⟩
      · simp [chunks9, ih1]
      · intro c hc
        simp only [chunks9, List.mem_cons] at hc
        rcases hc with rfl | hc
        · rfl
        · exact ih2 c hc

theorem decode_dtl_packet_isSome (packet : List Nat) (useInt : Bool) (tz : Int)
    (h : packet.length = 9) : (decode_dtl_packet packet useInt tz).isSome := by
  unfold decode_dtl_packet
  rw [if_pos h]
  rfl

theorem length_filterMap_of_isSome {α β : Type} (f : α → Option β)
    (l : List α) (h : ∀ a ∈ l, (f a).isSome) :
    (l.filterMap f).length = l.length := by
  induction l with
  | nil => rfl
  | cons a rest ih =>
      obtain ⟨b, hb⟩ := Option.isSome_iff_exists.mp (h a (List.mem_cons_self a rest))
      rw [List.filterMap_cons, hb]
      simp only [List.length_cons]
      rw [ih (fun x hx => h x (List.mem_cons_of_mem a hx))]

theorem lookup_map_update (base custom : List (String × String)) (c : String) :
    (base.map (fun kv =>
      match custom.lookup kv.1 with
      | some v => (kv.1, v)
      | none => kv)).lookup c =
      (base.lookup c).map (fun v => (custom.lookup c).getD v) := by
  induction base with
  | nil => rfl
  | cons kv rest ih =>
      obtain ⟨k, v₀⟩ := kv
      by_cases hk : c = k
      · subst hk
        rcases hc : custom.lookup c with _ | w <;>
          simp [List.lookup_cons, hc]
      · have hbeq : (c == k) = false := beq_eq_false_iff_ne.mpr hk
        rcases hc : custom.lookup k with _ | w <;>
          simp [List.lookup_cons, hc, hbeq, ih]

theorem lookup_filter_of_base_none (base custom : List (String × String))
    (c : String) (h : base.lookup c = none) :
    (custom.filter (fun kv => (base.lookup kv.1).isNone)).lookup c =
      custom.lookup c := by
  induction custom with
  | nil => rfl
  | cons kv rest ih =>
      obtain ⟨k, v⟩ := kv
      by_cases hk : c = k
      · subst hk
        simp [List.filter_cons, h, List.lookup_cons]
      · have hbeq : (c == k) = false := beq_eq_false_iff_ne.mpr hk
        by_cases hb : (base.lookup k).isNone
        · simp [List.filter_cons, hb, List.lookup_cons, hbeq, ih]
        · simp [List.filter_cons, hb, List.lookup_cons, hbeq, ih]

theorem lookup_filter_of_base_some (base custom : List (String × String))
    (c : String) (h : (base.lookup c).isSome) :
    (custom.filter (fun kv => (base.lookup kv.1).isNone)).lookup c = none := by
  induction custom with
  | nil => rfl
  | cons kv rest ih =>
      obtain ⟨k, v⟩ := kv
      by_cases hk : c = k
      · subst hk
        have hb : ¬ (base.lookup c).isNone = true := by
          rw [Option.isNone_iff_eq_none]
          intro hno
          rw [hno] at h
          simp at h
        simp [List.filter_cons, hb, ih]
      · have hbeq : (c == k) = false := beq_eq_false_iff_ne.mpr hk
        by_cases hb : (base.lookup k).isNone
        · simp [List.filter_cons, hb, List.lookup_cons, hbeq, ih]
        · simp [List.filter_cons, hb, ih]

/-- `dict.update` semantics at lookup level: the custom value wins where
present, otherwise the base value survives. -/
theorem dictUpdate_lookup (base custom : List (String × String)) (c : String) :
    (dictUpdate base custom).lookup c =
      (custom.lookup c).or (base.lookup c) := by
  unfold dictUpdate
  rw [List.lookup_append, lookup_map_update]
  rcases hb : base.lookup c with _ | v
  · rw [lookup_filter_of_base_none base custom c hb]
    cases hc : custom.lookup c <;> simp
  · rw [lookup_filter_of_base_some base custom c (by rw [hb]; rfl)]
    cases hc : custom.lookup c <;> simp

/-! ## Claim theorems -/

/-- Claim C7: a walked file whose name case-insensitively ends in `.dtl` is
classified by testing the registry patterns in order, first match wins
(`classify` equals `find?` over the registry); a classified file is
recorded in its matched type's found list and a file's name never appears
under any other type; an unmatched file appears in no found list and is
counted — and only counted — by the unrecognized counter. -/
theorem c7_first_match_classification (walk : Walk) (root filename : String)
    (hmem : (root, filename) ∈ walk) (hdtl : hasDtlSuffix filename = true) :
    (classify file_type_definitions filename =
      (file_type_definitions.find? (fun e => fnmatch filename e.2.1)).map
        (fun e => (e.1, e.2.2))) ∧
    (∀ t h, classify file_type_definitions filename = some (t, h) →
      (⟨root, filename, h⟩ : FileInfo) ∈
          (count_file_types_recursively walk).found_files t ∧
      ∀ t' info, info ∈ (count_file_types_recursively walk).found_files t' →
        info.filename = filename → t' = t) ∧
    (classify file_type_definitions filename = none →
      (∀ t' info, info ∈ (count_file_types_recursively walk).found_files t' →
        info.filename ≠ filename) ∧
      1 ≤ (count_file_types_recursively walk).unrecognized_count ∧
      (count_file_types_recursively walk).unrecognized_count =
        (walk.filter (fun e => hasDtlSuffix e.2 &&
          (classify file_type_definitions e.2).isNone)).length) := by
  have hfound : ∀ t', (count_file_types_recursively walk).found_files t' =
      ((walk.filterMap discEntry).filter (fun p => p.1 == t')).map Prod.snd := by
    intro t'
    unfold count_file_types_recursively
    rw [scanFound_eq]
    simp
  have hmemOf : ∀ t' info, info ∈ (count_file_types_recursively walk).found_files t' →
      ∃ e ∈ walk, discEntry e = some (t', info) := by
    intro t' info hin
    rw [hfound] at hin
    obtain ⟨p, hp, rfl⟩ := List.mem_map.mp hin
    obtain ⟨hpm, hpt⟩ := List.mem_filter.mp hp
    obtain ⟨e, he, hde⟩ := List.mem_filterMap.mp hpm
    exact ⟨e, he, by
      obtain ⟨p₁, p₂⟩ := p
      simp only [beq_iff_eq] at hpt
      subst hpt
      exact hde⟩
  refine ⟨classify_eq_first_match _ _, ?_, ?_⟩
  · intro t h hcls
    constructor
    · rw [hfound]
      refine List.mem_map.mpr ⟨(t, ⟨root, filename, h⟩), ?_, rfl⟩
      refine List.mem_filter.mpr ⟨?_, by simp⟩
      exact List.mem_filterMap.mpr
        ⟨(root, filename), hmem, by simp [discEntry, hdtl, hcls]⟩
    · intro t' info hin hname
      obtain ⟨e, _, hde⟩ := hmemOf t' info hin
      unfold discEntry at hde
      by_cases hd : hasDtlSuffix e.2
      · rw [if_pos hd] at hde
        obtain ⟨⟨ft, hl⟩, hce, hfb⟩ := Option.map_eq_some'.mp hde
        obtain ⟨hft, hinfo⟩ := Prod.mk.inj hfb
        subst hft
        have hfn : e.2 = filename := by
          rw [← hinfo] at hname
          exact hname
        rw [hfn, hcls] at hce
        exact ((Prod.mk.inj (Option.some.inj hce)).1).symm
      · rw [if_neg hd] at hde
        exact Option.noConfusion hde
  · intro hnone
    refine ⟨?_, ?_, ?_⟩
    · intro t' info hin hname
      obtain ⟨e, _, hde⟩ := hmemOf t' info hin
      unfold discEntry at hde
      by_cases hd : hasDtlSuffix e.2
      · rw [if_pos hd] at hde
        obtain ⟨⟨ft, hl⟩, hce, hfb⟩ := Option.map_eq_some'.mp hde
        obtain ⟨hft, hinfo⟩ := Prod.mk.inj hfb
        have hfn : e.2 = filename := by
          rw [← hinfo] at hname
          exact hname
        rw [hfn, hnone] at hce
        exact Option.noConfusion hce
      · rw [if_neg hd] at hde
        exact Option.noConfusion hde
    · have hcnt : (count_file_types_recursively walk).unrecognized_count =
          (walk.filter (fun e => hasDtlSuffix e.2 &&
            (classify file_type_definitions e.2).isNone)).length := by
        unfold count_file_types_recursively
        rw [scanUnrecognized_eq]
        simp
      rw [hcnt]
      have : (root, filename) ∈ walk.filter (fun e => hasDtlSuffix e.2 &&
          (classify file_type_definitions e.2).isNone) :=
        List.mem_filter.mpr ⟨hmem, by simp [hdtl, hnone]⟩
      exact List.length_pos_of_mem this
    · unfold count_file_types_recursively
      rw [scanUnrecognized_eq]
      simp

/-- Claim C7 witness: the classification facts at a one-file walk containing
`SiteA_DataLogCO2Days.dtl`. -/
theorem c7_first_match_classification_witness :
    (⟨"r", "SiteA_DataLogCO2Days.dtl", 39⟩ : FileInfo) ∈
      (count_file_types_recursively
        [("r", "SiteA_DataLogCO2Days.dtl")]).found_files "co2days" :=
  ((c7_first_match_classification [("r", "SiteA_DataLogCO2Days.dtl")] "r"
    "SiteA_DataLogCO2Days.dtl" (by decide) (by decide)).2.1
    "co2days" 39 (by decide)).1

/-- Claim C1 (code bug, evaluated at the failing input): the sanitizer is
claimed to reject absolute-path semantics, but `PurePosixPath("/etc/passwd")`
has the root part `"/"`, which is neither `".."` nor `""` and therefore
survives the segment filter.  The reconstructed path is absolute, and
joining it onto the destination root replaces the root entirely — the
write lands at `/etc/passwd`, outside the destination.  The relative
inputs from the claim are handled as specified. -/
theorem c1_sanitizer_keeps_absolute_root_escaping_destination :
    safe_relative_path "/etc/passwd" = ["/", "etc", "passwd"] ∧
    pathJoin ["/", "tmp", "uploads"] (safe_relative_path "/etc/passwd") =
      ["/", "etc", "passwd"] ∧
    ¬ (["/", "tmp", "uploads"] <+:
        pathJoin ["/", "tmp", "uploads"] (safe_relative_path "/etc/passwd")) ∧
    safe_relative_path "../../etc/passwd" = ["etc", "passwd"] ∧
    safe_relative_path "a/../../b" = ["a", "b"] ∧
    safe_relative_path "" = ["unnamed_uploaded_file.dtl"] := by
  decide

/-- Claim C2 (counterexample): `XDataLogDoorOpen.dtl` contains none of the
substrings `_parse_dtl_file` checks, so its packets are decoded with float
encoding, not the integer encoding the claim asserts. -/
theorem c2_dooropen_decodes_as_float_counterexample :
    use_integer_encoding "XDataLogDoorOpen.dtl" = false ∧
    decode_dtl_packet [0, 0, 0, 0, 0, 1, 2, 3, 4]
        (use_integer_encoding "XDataLogDoorOpen.dtl") 0 =
      some { date_full := "1970-01-01", time_full := "00:00:00", ms := 0,
             value := .floatVal (leU32 1 2 3 4) } := by
  decide

/-- Claim C2 (amended): the value bytes 5–8 of a 9-byte packet are decoded
as a little-endian signed 32-bit integer exactly when the filename contains
one of the substrings `DataLogDoorDays`, `DataLogDoorMonth`,
`DataLogDoorYear`, and as a little-endian 32-bit float (raw bit pattern)
otherwise; the flag comes from the filename, not the file-type
identifier. -/
theorem c2_encoding_flag_from_door_substrings (name : String)
    (packet : List Nat) (tz : Int) (h : packet.length = 9) :
    ∃ r, decode_dtl_packet packet (use_integer_encoding name) tz = some r ∧
      r.value = (if use_integer_encoding name then
          DtlValue.intVal (toSigned32
            (leU32 (packet.getD 5 0) (packet.getD 6 0) (packet.getD 7 0) (packet.getD 8 0)))
        else
          DtlValue.floatVal
            (leU32 (packet.getD 5 0) (packet.getD 6 0) (packet.getD 7 0) (packet.getD 8 0))) ∧
      (use_integer_encoding name = true ↔
        (containsSubstr name "DataLogDoorDays" ||
          containsSubstr name "DataLogDoorMonth" ||
          containsSubstr name "DataLogDoorYear") = true) := by
  have hdec : decode_dtl_packet packet (use_integer_encoding name) tz =
      some
        { date_full := renderDate tz
            (leU32 (packet.getD 0 0) (packet.getD 1 0) (packet.getD 2 0) (packet.getD 3 0))
          time_full := renderTime tz
            (leU32 (packet.getD 0 0) (packet.getD 1 0) (packet.getD 2 0) (packet.getD 3 0))
          ms := packet.getD 4 0 * 10
          value := if use_integer_encoding name then
              DtlValue.intVal (toSigned32
                (leU32 (packet.getD 5 0) (packet.getD 6 0) (packet.getD 7 0) (packet.getD 8 0)))
            else
              DtlValue.floatVal
                (leU32 (packet.getD 5 0) (packet.getD 6 0) (packet.getD 7 0) (packet.getD 8 0)) } := by
    unfold decode_dtl_packet
    rw [if_pos h]
  refine ⟨_, hdec, rfl, ?_⟩
  simp [use_integer_encoding, door_patterns, Bool.or_assoc]

/-- Claim C2 witness: the amended theorem applied to a door-days filename
and a concrete packet. -/
theorem c2_encoding_flag_from_door_substrings_witness :
    ∃ r, decode_dtl_packet [0, 0, 0, 0, 0, 255, 255, 255, 255]
        (use_integer_encoding "X_DataLogDoorDays.dtl") 0 = some r ∧
      r.value = (if use_integer_encoding "X_DataLogDoorDays.dtl" then
          DtlValue.intVal (toSigned32 (leU32 255 255 255 255))
        else DtlValue.floatVal (leU32 255 255 255 255)) ∧
      (use_integer_encoding "X_DataLogDoorDays.dtl" = true ↔
        (containsSubstr "X_DataLogDoorDays.dtl" "DataLogDoorDays" ||
          containsSubstr "X_DataLogDoorDays.dtl" "DataLogDoorMonth" ||
          containsSubstr "X_DataLogDoorDays.dtl" "DataLogDoorYear") = true) :=
  c2_encoding_flag_from_door_substrings "X_DataLogDoorDays.dtl"
    [0, 0, 0, 0, 0, 255, 255, 255, 255] 0 (by decide)

/-- Claim C3: a packet of length other than 9 decodes to the explicit
unparseable signal (`none`), never a partial record; a 9-byte packet
decodes to a record whose date and time render the little-endian unsigned
32-bit timestamp of bytes 0–3 in the configured time zone, and whose
milliseconds field is byte 4 times 10, at most 2550.  (With a fixed-offset
time zone every unsigned 32-bit timestamp is representable, so no further
failure case exists in the decoder.) -/
theorem c3_packet_decoder_contract (packet : List Nat) (useInt : Bool)
    (tz : Int) :
    (packet.length ≠ 9 → decode_dtl_packet packet useInt tz = none) ∧
    (packet.length = 9 → packet.getD 4 0 < 256 →
      ∃ r, decode_dtl_packet packet useInt tz = some r ∧
        r.date_full = renderDate tz
          (leU32 (packet.getD 0 0) (packet.getD 1 0) (packet.getD 2 0) (packet.getD 3 0)) ∧
        r.time_full = renderTime tz
          (leU32 (packet.getD 0 0) (packet.getD 1 0) (packet.getD 2 0) (packet.getD 3 0)) ∧
        r.ms = packet.getD 4 0 * 10 ∧ r.ms ≤ 2550) := by
  constructor
  · intro h
    unfold decode_dtl_packet
    rw [if_neg h]
  · intro h hb
    have hdec : decode_dtl_packet packet useInt tz =
        some
          { date_full := renderDate tz
              (leU32 (packet.getD 0 0) (packet.getD 1 0) (packet.getD 2 0) (packet.getD 3 0))
            time_full := renderTime tz
              (leU32 (packet.getD 0 0) (packet.getD 1 0) (packet.getD 2 0) (packet.getD 3 0))
            ms := packet.getD 4 0 * 10
            value := if useInt then
                DtlValue.intVal (toSigned32
                  (leU32 (packet.getD 5 0) (packet.getD 6 0) (packet.getD 7 0) (packet.getD 8 0)))
              else
                DtlValue.floatVal
                  (leU32 (packet.getD 5 0) (packet.getD 6 0) (packet.getD 7 0) (packet.getD 8 0)) } := by
      unfold decode_dtl_packet
      rw [if_pos h]
    refine ⟨_, hdec, rfl, rfl, rfl, ?_⟩
    show packet.getD 4 0 * 10 ≤ 2550
    omega

/-- Claim C3 witness: the contract applied to a short packet and to a
concrete 9-byte packet with the maximal sub-second byte. -/
theorem c3_packet_decoder_contract_witness :
    decode_dtl_packet [1, 2, 3] false 0 = none ∧
    ∃ r, decode_dtl_packet [0, 0, 0, 0, 255, 0, 0, 0, 0] false 0 = some r ∧
      r.date_full = renderDate 0 (leU32 0 0 0 0) ∧
      r.time_full = renderTime 0 (leU32 0 0 0 0) ∧
      r.ms = 255 * 10 ∧ r.ms ≤ 2550 := by
  refine ⟨(c3_packet_decoder_contract [1, 2, 3] false 0).1 (by decide), ?_⟩
  have h := (c3_packet_decoder_contract [0, 0, 0, 0, 255, 0, 0, 0, 0] false 0).2
    (by decide) (by decide)
  simpa using h

/-- Claim C4: the validator passes exactly when the file is present with a
size at least the header length and a body that is a whole number of
9-byte records; a missing file or an I/O error both yield a plain `false`
(fail-closed), never an exception. -/
theorem c4_validator_pass_fail_characterization (fs : FS) (root name : String)
    (header_length : Nat) :
    (validate_dtl_file fs root name header_length = true ↔
      ∃ bytes, fs root name = .contents bytes ∧
        header_length ≤ bytes.length ∧
        (bytes.length - header_length) % 9 = 0) ∧
    (fs root name = .absent → validate_dtl_file fs root name header_length = false) ∧
    (fs root name = .ioErr → validate_dtl_file fs root name header_length = false) := by
  unfold validate_dtl_file
  rcases hfs : fs root name with _ | _ | bytes
  · simp
  · simp
  · refine ⟨⟨?_, ?_⟩, by simp, by simp⟩
    · intro hv
      by_cases hlen : bytes.length < header_length
      · simp [hlen] at hv
      · refine ⟨bytes, rfl, by omega, ?_⟩
        simpa [hlen] using hv
    · rintro ⟨bytes', heq, hle, hmod⟩
      have hb : bytes' = bytes := by
        cases heq
        rfl
      subst hb
      simp [Nat.not_lt.mpr hle, hmod]

/-- Claim C4 witness: the characterization applied to a filesystem holding
one well-formed file, one short file and one erroring path. -/
theorem c4_validator_pass_fail_characterization_witness :
    validate_dtl_file
      (fun root _ => if root = "ok" then .contents (List.replicate 48 0)
        else if root = "io" then .ioErr else .absent)
      "ok" "f.dtl" 39 = true ∧
    validate_dtl_file
      (fun root _ => if root = "ok" then .contents (List.replicate 48 0)
        else if root = "io" then .ioErr else .absent)
      "io" "f.dtl" 39 = false ∧
    validate_dtl_file
      (fun root _ => if root = "ok" then .contents (List.replicate 48 0)
        else if root = "io" then .ioErr else .absent)
      "gone" "f.dtl" 39 = false := by
  refine ⟨?_, ?_, ?_⟩
  · exact (c4_validator_pass_fail_characterization _ "ok" "f.dtl" 39).1.mpr
      ⟨List.replicate 48 0, by decide, by decide, by decide⟩
  · exact (c4_validator_pass_fail_characterization _ "io" "f.dtl" 39).2.2 (by decide)
  · exact (c4_validator_pass_fail_characterization _ "gone" "f.dtl" 39).2.1 (by decide)

/-- Claim C5 (counterexample): with two recognized files sharing the base
filename `A_DataLogCO2Days` — the earlier one failing validation, the
later one valid and non-empty — the failing file's decode is overwritten
in the base-filename-keyed dict, so the summary's empty-files list comes
out empty: the failing file is dropped from the summary, contradicting the
claim that every file failing validation is listed there. -/
theorem c5_invalid_file_dropped_from_summary_counterexample :
    validate_dtl_file fsTwin "r1" "A_DataLogCO2Days.dtl" 39 = false ∧
    (process_directory dirTwin 0 [] none "20251012").1.toOption.map
      (fun r => r.summary.empty_files) = some [] := by
  decide

/-- Claim C5 (amended): a discovered file that fails validation decodes to
the explicitly empty table without raising, and — provided no
later-processed recognized file shares its base filename — its original
name is listed in the summary's empty-files list while the batch still
succeeds. -/
theorem c5_invalid_file_empty_and_reported (d : Dir) (tz : Int)
    (custom : List (String × String)) (archive_label : Option String)
    (today : String) (l₁ l₂ : List (String × FileInfo)) (t : String)
    (info : FileInfo)
    (hp : d.present = true) (hd : d.isDir = true)
    (hrec : (count_file_types_recursively d.walk).total_recognized ≠ 0)
    (hsplit : flattenFound (foundGroups (count_file_types_recursively d.walk)) =
      l₁ ++ (t, info) :: l₂)
    (hval : validate_dtl_file d.fs info.root info.filename info.header_length = false)
    (hlast : ∀ p ∈ l₂, stem p.2.filename ≠ stem info.filename) :
    parse_dtl_file d.fs tz info.root info.filename info.header_length = [] ∧
    ∃ res, (process_directory d tz custom archive_label today).1 = .ok res ∧
      info.filename ∈ res.summary.empty_files := by
  have hparse : parse_dtl_file d.fs tz info.root info.filename
      info.header_length = [] := by
    unfold parse_dtl_file
    rw [if_neg (by simp [hval])]
  refine ⟨hparse, ?_⟩
  have hlook : (decode_all_files d.fs tz
      (foundGroups (count_file_types_recursively d.walk))).lookup
        (stem info.filename) = some (decodeOne d.fs tz t info) := by
    rw [decode_all_files_eq_decodeFlat, hsplit]
    exact decodeFlat_lookup_last d.fs tz l₁ l₂ t info [] hlast
  have hmem := mem_of_lookup_eq_some _ _ _ hlook
  simp only [process_directory, hp, hd]
  rw [if_neg (by simp), if_neg hrec]
  refine ⟨_, rfl, ?_⟩
  apply List.mem_map.mpr
  refine ⟨(stem info.filename, decodeOne d.fs tz t info), ?_, rfl⟩
  apply List.mem_filter.mpr
  refine ⟨hmem, ?_⟩
  show (decodeOne d.fs tz t info).is_empty = true
  unfold decodeOne DecodedFile.is_empty
  simp [hparse]

/-- Claim C5 witness: the amended theorem applied to a directory whose only
file fails validation; its name is reported in the empty-files list. -/
theorem c5_invalid_file_empty_and_reported_witness :
    parse_dtl_file dirSingleInvalid.fs 0 "r1" "A_DataLogCO2Days.dtl" 39 = [] ∧
    ∃ res, (process_directory dirSingleInvalid 0 [] none "20251012").1 = .ok res ∧
      "A_DataLogCO2Days.dtl" ∈ res.summary.empty_files :=
  c5_invalid_file_empty_and_reported dirSingleInvalid 0 [] none "20251012"
    [] [] "co2days" ⟨"r1", "A_DataLogCO2Days.dtl", 39⟩
    (by decide) (by decide) (by decide) (by decide) (by decide)
    (by intro p hp'; exact absurd hp' (List.not_mem_nil p))

/-- Claim C10: decode results are keyed by base filename.  When an earlier
and a later discovered file share a base filename (and nothing after the
later one does), the dict entry for that base is the decode of the later
file — the earlier one's table is gone — the manifest carries exactly one
artifact per dict entry, the summary's recognized count equals the number
of discovered (matched) files, and the number of exported artifacts is
strictly smaller than the recognized count. -/
theorem c10_duplicate_base_last_wins (d : Dir) (tz : Int)
    (custom : List (String × String)) (archive_label : Option String)
    (today : String) (l₁ l₂ l₃ : List (String × FileInfo))
    (t₁ t₂ : String) (i₁ i₂ : FileInfo)
    (hp : d.present = true) (hd : d.isDir = true)
    (hrec : (count_file_types_recursively d.walk).total_recognized ≠ 0)
    (hsplit : flattenFound (foundGroups (count_file_types_recursively d.walk)) =
      l₁ ++ (t₁, i₁) :: l₂ ++ (t₂, i₂) :: l₃)
    (hbase : stem i₂.filename = stem i₁.filename)
    (hlast : ∀ p ∈ l₃, stem p.2.filename ≠ stem i₂.filename) :
    (decode_all_files d.fs tz
      (foundGroups (count_file_types_recursively d.walk))).lookup
        (stem i₂.filename) = some (decodeOne d.fs tz t₂ i₂) ∧
    ∃ res, (process_directory d tz custom archive_label today).1 = .ok res ∧
      (∃ folder, res.exported_files =
        (decode_all_files d.fs tz
          (foundGroups (count_file_types_recursively d.walk))).map
            (fun kv => exportArtifact folder kv.2)) ∧
      res.summary.recognized_files =
        (flattenFound (foundGroups (count_file_types_recursively d.walk))).length ∧
      res.exported_files.length < res.summary.recognized_files := by
  have hsplit' : flattenFound (foundGroups (count_file_types_recursively d.walk)) =
      (l₁ ++ (t₁, i₁) :: l₂) ++ (t₂, i₂) :: l₃ := by
    rw [hsplit, List.append_assoc]
  have hlook : (decode_all_files d.fs tz
      (foundGroups (count_file_types_recursively d.walk))).lookup
        (stem i₂.filename) = some (decodeOne d.fs tz t₂ i₂) := by
    rw [decode_all_files_eq_decodeFlat, hsplit']
    exact decodeFlat_lookup_last d.fs tz (l₁ ++ (t₁, i₁) :: l₂) l₃ t₂ i₂ [] hlast
  refine ⟨hlook, ?_⟩
  have hlen : (decode_all_files d.fs tz
      (foundGroups (count_file_types_recursively d.walk))).length <
      (flattenFound (foundGroups (count_file_types_recursively d.walk))).length := by
    rw [decode_all_files_eq_decodeFlat, hsplit']
    rw [decodeFlat_append, decodeFlat_cons]
    set A := decodeFlat d.fs tz [] (l₁ ++ (t₁, i₁) :: l₂) with hA
    have hAlen : A.length ≤ l₁.length + l₂.length + 1 := by
      have h := decodeFlat_length_le d.fs tz (l₁ ++ (t₁, i₁) :: l₂) []
      simp only [List.length_nil, List.length_append, List.length_cons] at h
      rw [hA]
      omega
    have hAsome : (A.lookup (decodeOne d.fs tz t₂ i₂).base_filename).isSome := by
      have hb2 : (decodeOne d.fs tz t₂ i₂).base_filename = stem i₁.filename := by
        show stem i₂.filename = stem i₁.filename
        exact hbase
      rw [hb2, hA]
      rw [decodeFlat_append, decodeFlat_cons]
      apply decodeFlat_lookup_isSome
      have hb1 : (decodeOne d.fs tz t₁ i₁).base_filename = stem i₁.filename := rfl
      rw [← hb1, dictInsert_lookup_self]
      rfl
    have hstep : (dictInsert A (decodeOne d.fs tz t₂ i₂).base_filename
        (decodeOne d.fs tz t₂ i₂)).length = A.length :=
      dictInsert_length_of_isSome _ _ _ hAsome
    have hfin := decodeFlat_length_le d.fs tz l₃
      (dictInsert A (decodeOne d.fs tz t₂ i₂).base_filename
        (decodeOne d.fs tz t₂ i₂))
    simp only [List.length_append, List.length_cons]
    omega
  simp only [process_directory, hp, hd]
  rw [if_neg (by simp), if_neg hrec]
  refine ⟨_, rfl, ?_, ?_, ?_⟩
  · exact ⟨_, export_fst_eq _ _ _⟩
  · show (count_file_types_recursively d.walk).total_recognized = _
    rw [total_recognized_eq, length_flattenFound]
  · show (export_to_excel _ _ _).1.length <
      (count_file_types_recursively d.walk).total_recognized
    rw [export_fst_eq, List.length_map, total_recognized_eq, ← length_flattenFound]
    exact hlen

/-- Claim C10 witness: the theorem applied to the two-file directory
`dirTwin`, whose files share the base `A_DataLogCO2Days`. -/
theorem c10_duplicate_base_last_wins_witness :
    (decode_all_files dirTwin.fs 0
      (foundGroups (count_file_types_recursively dirTwin.walk))).lookup
        (stem "A_DataLogCO2Days.dtl") =
      some (decodeOne dirTwin.fs 0 "co2days" ⟨"r2", "A_DataLogCO2Days.dtl", 39⟩) ∧
    ∃ res, (process_directory dirTwin 0 [] none "20251012").1 = .ok res ∧
      (∃ folder, res.exported_files =
        (decode_all_files dirTwin.fs 0
          (foundGroups (count_file_types_recursively dirTwin.walk))).map
            (fun kv => exportArtifact folder kv.2)) ∧
      res.summary.recognized_files =
        (flattenFound (foundGroups (count_file_types_recursively dirTwin.walk))).length ∧
      res.exported_files.length < res.summary.recognized_files :=
  c10_duplicate_base_last_wins dirTwin 0 [] none "20251012"
    [] [] [] "co2days" "co2days"
    ⟨"r1", "A_DataLogCO2Days.dtl", 39⟩ ⟨"r2", "A_DataLogCO2Days.dtl", 39⟩
    (by decide) (by decide) (by decide) (by decide) (by decide)
    (by intro p hp'; exact absurd hp' (List.not_mem_nil p))

/-- Claim C6: when a recognized file passes validation with a body of
exactly `n` complete 9-byte packets (every 9-byte packet decodes
successfully under a fixed-offset time zone), the decoded table has exactly
`n` rows, sorted ascending by the lexicographic (date string, time string)
key; and the export step writes each table's rows verbatim, in table order
(rows are never reordered after the sort). -/
theorem c6_decoded_table_rows_and_sorted (fs : FS) (tz : Int)
    (root name : String) (header_length n : Nat) (bytes : List Nat)
    (hfs : fs root name = .contents bytes)
    (hlen : bytes.length = header_length + 9 * n) :
    (parse_dtl_file fs tz root name header_length).length = n ∧
    List.Sorted recKeyLE (parse_dtl_file fs tz root name header_length) ∧
    (∀ decoded folder custom,
      (export_to_excel decoded folder custom).2.2.map (fun w => w.rows) =
        decoded.map (fun kv => kv.2.records)) := by
  have hval : validate_dtl_file fs root name header_length = true := by
    unfold validate_dtl_file
    rw [hfs]
    show (if bytes.length < header_length then false
      else decide ((bytes.length - header_length) % 9 = 0)) = true
    rw [if_neg (by omega)]
    simp only [hlen, decide_eq_true_eq]
    omega
  have hbody : (bytes.drop header_length).length = 9 * n := by
    rw [List.length_drop]
    omega
  obtain ⟨hchunks_len, hchunks_each⟩ := chunks9_spec n (bytes.drop header_length) hbody
  have hparse : parse_dtl_file fs tz root name header_length =
      List.insertionSort recKeyLE
        ((chunks9 (bytes.drop header_length)).filterMap
          (fun packet => decode_dtl_packet packet (use_integer_encoding name) tz)) := by
    unfold parse_dtl_file
    rw [if_pos hval, hfs]
  refine ⟨?_, ?_, ?_⟩
  · rw [hparse, List.length_insertionSort]
    rw [length_filterMap_of_isSome _ _
      (fun c hc => decode_dtl_packet_isSome c _ tz (hchunks_each c hc))]
    exact hchunks_len
  · rw [hparse]
    exact List.sorted_insertionSort recKeyLE _
  · intro decoded folder custom
    rw [export_written_eq, List.map_map]
    rfl

/-- Claim C6 witness: a file with two out-of-order packets decodes to a
2-row sorted table. -/
theorem c6_decoded_table_rows_and_sorted_witness :
    (parse_dtl_file fsSorted 0 "r" "B_DataLogCO2Days.dtl" 39).length = 2 ∧
    List.Sorted recKeyLE (parse_dtl_file fsSorted 0 "r" "B_DataLogCO2Days.dtl" 39) ∧
    (∀ decoded folder custom,
      (export_to_excel decoded folder custom).2.2.map (fun w => w.rows) =
        decoded.map (fun kv => kv.2.records)) :=
  c6_decoded_table_rows_and_sorted fsSorted 0 "r" "B_DataLogCO2Days.dtl" 39 2
    (List.replicate 39 7 ++ [0, 0, 1, 0, 0, 9, 9, 9, 9] ++
      [0, 0, 0, 0, 0, 1, 2, 3, 4])
    (by decide) (by decide)

/-- Claim C8: each input-error condition aborts the pipeline immediately,
before any side effect: an empty upload batch errors with no event at all
(in particular no temporary directory), a missing or non-directory target
errors with no event, and a directory with zero recognized files errors
before any export event. -/
theorem c8_input_errors_abort_early (uploads : List UploadedItem)
    (materialised d : Dir) (tz : Int) (custom : List (String × String))
    (archive_label : Option String) (today : String) :
    (uploads = [] →
      process_uploads uploads materialised tz custom archive_label today =
        (.error .emptyUploadBatch, [])) ∧
    (¬(d.present = true ∧ d.isDir = true) →
      process_directory d tz custom archive_label today =
        (.error .badDirectory, [])) ∧
    (d.present = true → d.isDir = true →
      (count_file_types_recursively d.walk).total_recognized = 0 →
      process_directory d tz custom archive_label today =
        (.error .noRecognizedFiles, [])) := by
  refine ⟨?_, ?_, ?_⟩
  · intro h
    subst h
    rfl
  · intro h
    have hc : ¬ (d.present && d.isDir) = true := by
      rw [Bool.and_eq_true]
      exact h
    unfold process_directory
    rw [if_pos hc]
  · intro hp hd h0
    simp only [process_directory, hp, hd]
    rw [if_neg (by simp), if_pos h0]

/-- Claim C8 witness: the three error paths evaluated on an empty upload
batch, a missing directory and an empty directory. -/
theorem c8_input_errors_abort_early_witness :
    process_uploads [] emptyWalkDir 0 [] none "20251012" =
      (.error .emptyUploadBatch, []) ∧
    process_directory missingDir 0 [] none "20251012" =
      (.error .badDirectory, []) ∧
    process_directory emptyWalkDir 0 [] none "20251012" =
      (.error .noRecognizedFiles, []) :=
  ⟨(c8_input_errors_abort_early [] emptyWalkDir emptyWalkDir 0 [] none
      "20251012").1 rfl,
   (c8_input_errors_abort_early [] missingDir missingDir 0 [] none
      "20251012").2.1 (by intro hcon; exact Bool.noConfusion hcon.1),
   (c8_input_errors_abort_early [] emptyWalkDir emptyWalkDir 0 [] none
      "20251012").2.2 rfl rfl (by decide)⟩

/-- Claim C9 (counterexample): an empty decoded table is exported with the
internal column names unrenamed — `date_full, time_full, ms, value` —
which are not the human-readable headers the claim promises for every
DecodedTable. -/
theorem c9_empty_table_headers_unrenamed_counterexample :
    (export_to_excel [("E_DataLogCO2Days", emptyDecodedCO2)] "F" []).2.2.map
      (fun w => w.headers) = [["date_full", "time_full", "ms", "value"]] ∧
    ["date_full", "time_full", "ms", "value"] ≠
      ["Date", "Time", "Milliseconds", "CO2 Emissions Prevented (kg)"] := by
  decide

/-- Claim C9 (amended): for every non-empty DecodedTable the exported
header row translates each internal column name through the per-file-type
mapping — the value label being file-type-specific — with a caller-supplied
override replacing the corresponding default label; an empty table is
exported with the internal names unchanged. -/
theorem c9_nonempty_export_headers_mapping (d : DecodedFile)
    (custom : List (String × String)) (h : d.records ≠ []) :
    exportHeaders d custom = internal_columns.map (fun c =>
      match custom.lookup c with
      | some v => v
      | none => ((column_mapping d.file_type).lookup c).getD c) := by
  unfold exportHeaders
  rw [if_neg (by simp [h])]
  apply List.map_congr_left
  intro c _
  rw [dictUpdate_lookup]
  rcases hc : custom.lookup c with _ | v
  · simp
  · simp

/-- Claim C9 witness: the amended theorem applied to a one-row co2days
table with an override for the value column. -/
theorem c9_nonempty_export_headers_mapping_witness :
    exportHeaders oneRowDecodedCO2 [("value", "Kilograms saved")] =
      internal_columns.map (fun c =>
        match ([("value", "Kilograms saved")] : List (String × String)).lookup c with
        | some v => v
        | none =>
            ((column_mapping oneRowDecodedCO2.file_type).lookup c).getD c) :=
  c9_nonempty_export_headers_mapping oneRowDecodedCO2
    [("value", "Kilograms saved")] (by decide)

end DTL
